import Mathlib

/-!
Verification development for the streaming relay of the jarvis repository.

The definitions below are shallow embeddings of the JavaScript source in
`src/backend/audio-server/server.js` (the Node bridge, its SSE / WebSocket
broadcast hubs) and of the client-side `StreamingAudioPlayer`.  Strings from
the worker's stdout are modelled as `List Char`; binary buffers as
`List Nat` (byte values); the audio clock as `ℚ` (the Web Audio
`currentTime`, passed explicitly to each operation).
-/

namespace Jarvis

/-! ### Line Protocol Parser

Embedding of the `pythonProcess.stdout.on('data', ...)` buffering logic:

  outputBuffer += output;
  const lines = outputBuffer.split('\n');
  outputBuffer = lines.pop();
  for (const line of lines) { const trimmed = line.trim(); ... }

`splitNewline s` returns the pair (all-but-last, last) of
`s.split('\n')`: the complete lines in order and the trailing fragment
that the code pops back into `outputBuffer`.
-/

/-- One character step of the newline splitter, consuming the string from the
right (`foldr`): on `'\n'` a fresh empty complete line is opened; otherwise
the character is prepended to the first complete line if one exists, else to
the trailing fragment. -/
def snStep (c : Char) : List (List Char) × List Char → List (List Char) × List Char
  | (ls, r) =>
    if c = '\n' then ([] :: ls, r)
    else
      match ls with
      | [] => ([], c :: r)
      | l :: ls' => ((c :: l) :: ls', r)

/-- `splitNewline s = (complete lines of s in order, trailing fragment)`;
this is exactly JavaScript `s.split('\n')` with the last element popped off. -/
def splitNewline (s : List Char) : List (List Char) × List Char :=
  s.foldr snStep ([], [])

/-- JavaScript `String.prototype.trim` whitespace (the ASCII part; the claims
never exercise non-ASCII whitespace). -/
def isJsWhitespace (c : Char) : Bool :=
  c = ' ' || c = '\t' || c = '\n' || c = '\r' || c = '\x0b' || c = '\x0c'

/-- JavaScript `s.trim()`. -/
def jsTrim (s : List Char) : List Char :=
  ((s.dropWhile isJsWhitespace).reverse.dropWhile isJsWhitespace).reverse

/-- Parser state: the carry-over `outputBuffer` and the accumulated ordered
emissions (trimmed complete lines). -/
def feedFragment (st : List Char × List (List Char)) (frag : List Char) :
    List Char × List (List Char) :=
  let r := splitNewline (st.1 ++ frag)
  (r.2, st.2 ++ r.1.map jsTrim)

/-- Feeding a sequence of fragments one `data` event at a time. -/
def feedAll (st : List Char × List (List Char)) (frags : List (List Char)) :
    List Char × List (List Char) :=
  frags.foldl feedFragment st

lemma splitNewline_nil : splitNewline [] = ([], []) := rfl

lemma splitNewline_cons (c : Char) (s : List Char) :
    splitNewline (c :: s) = snStep c (splitNewline s) := rfl

/-- The trailing fragment never contains a newline. -/
lemma splitNewline_rest_no_nl (s : List Char) : '\n' ∉ (splitNewline s).2 := by
  induction s with
  | nil => simp [splitNewline]
  | cons c s ih =>
    rw [splitNewline_cons]
    rcases h : splitNewline s with ⟨ls, r⟩
    rw [h] at ih
    simp only [snStep]
    split
    · simpa using ih
    · match ls with
      | [] =>
        simp only [List.mem_cons]
        rintro (rfl | hmem)
        · simp_all
        · exact ih hmem
      | l :: ls' => simpa using ih

/-- A newline-free string splits into no complete lines and itself as rest. -/
lemma splitNewline_no_nl (s : List Char) (h : '\n' ∉ s) :
    splitNewline s = ([], s) := by
  induction s with
  | nil => rfl
  | cons c s ih =>
    rw [splitNewline_cons, ih (fun hm => h (List.mem_cons_of_mem _ hm))]
    simp only [snStep]
    have hc : ¬ c = '\n' := by
      intro hc; exact h (by simp [hc])
    simp [hc]

/-- Folding the splitter over `a` starting from an arbitrary downstream state:
the complete lines of `a` come first, and `a`'s trailing fragment merges into
the head of the downstream lines (or into the downstream rest when there are
none). -/
lemma foldr_snStep_eq (a : List Char) (lsb : List (List Char)) (rb : List Char) :
    a.foldr snStep (lsb, rb) =
      match lsb with
      | [] => ((splitNewline a).1, (splitNewline a).2 ++ rb)
      | l :: ls' => ((splitNewline a).1 ++ ((splitNewline a).2 ++ l) :: ls', rb) := by
  induction a with
  | nil =>
    cases lsb <;> simp [splitNewline]
  | cons c a ih =>
    rcases hsa : splitNewline a with ⟨la, ra⟩
    simp only [List.foldr_cons, ih]
    rw [splitNewline_cons, hsa]
    cases lsb with
    | nil =>
      simp only [snStep]
      split
      · simp
      · cases la <;> simp
    | cons l ls' =>
      simp only [snStep]
      split
      · simp
      · cases la <;> simp

/-- Splitting a concatenation in terms of the splits of the parts. -/
lemma splitNewline_append (a b : List Char) :
    splitNewline (a ++ b) =
      match (splitNewline b).1 with
      | [] => ((splitNewline a).1, (splitNewline a).2 ++ (splitNewline b).2)
      | l :: ls' =>
          ((splitNewline a).1 ++ ((splitNewline a).2 ++ l) :: ls', (splitNewline b).2) := by
  have : splitNewline (a ++ b) = a.foldr snStep (splitNewline b) := by
    simp [splitNewline, List.foldr_append]
  rw [this]
  rcases hb : splitNewline b with ⟨lb, rb⟩
  exact foldr_snStep_eq a lb rb

/-- `splitNewline_append`, specialised to a second part with no complete line. -/
lemma splitNewline_append_nil (a b : List Char) (h : (splitNewline b).1 = []) :
    splitNewline (a ++ b) = ((splitNewline a).1, (splitNewline a).2 ++ (splitNewline b).2) := by
  rw [splitNewline_append, h]

/-- `splitNewline_append`, specialised to a second part with at least one
complete line. -/
lemma splitNewline_append_cons (a b : List Char) (l : List Char)
    (ls' : List (List Char)) (h : (splitNewline b).1 = l :: ls') :
    splitNewline (a ++ b) =
      ((splitNewline a).1 ++ ((splitNewline a).2 ++ l) :: ls', (splitNewline b).2) := by
  rw [splitNewline_append, h]

/-- Processing two fragments in succession equals processing their
concatenation: the carry-over buffer makes the parser fragment-insensitive. -/
lemma feedFragment_comp (st : List Char × List (List Char)) (f g : List Char) :
    feedFragment (feedFragment st f) g = feedFragment st (f ++ g) := by
  rcases st with ⟨buf, acc⟩
  simp only [feedFragment]
  rcases h1 : splitNewline (buf ++ f) with ⟨ls1, r1⟩
  have hr1 : '\n' ∉ r1 := by
    have := splitNewline_rest_no_nl (buf ++ f); rw [h1] at this; exact this
  have hr1split : splitNewline r1 = ([], r1) := splitNewline_no_nl r1 hr1
  rcases hg : splitNewline g with ⟨lg, rg⟩
  cases lg with
  | nil =>
    have hgnil : (splitNewline g).1 = [] := by rw [hg]
    have hleft : splitNewline (r1 ++ g) = ([], r1 ++ rg) := by
      rw [splitNewline_append_nil r1 g hgnil, hr1split, hg]
    have hright : splitNewline (buf ++ (f ++ g)) = (ls1, r1 ++ rg) := by
      rw [← List.append_assoc, splitNewline_append_nil _ g hgnil, h1, hg]
    simp [hleft, hright]
  | cons l ls' =>
    have hgcons : (splitNewline g).1 = l :: ls' := by rw [hg]
    have hleft : splitNewline (r1 ++ g) = ((r1 ++ l) :: ls', rg) := by
      rw [splitNewline_append_cons r1 g l ls' hgcons, hr1split, hg]; simp
    have hright : splitNewline (buf ++ (f ++ g)) = (ls1 ++ (r1 ++ l) :: ls', rg) := by
      rw [← List.append_assoc, splitNewline_append_cons _ g l ls' hgcons, h1, hg]
    simp [hleft, hright]

/-- Feeding fragments one at a time from a newline-free buffer equals feeding
their concatenation at once. -/
lemma feedAll_eq_feedFragment_flatten (frags : List (List Char))
    (buf : List Char) (acc : List (List Char)) (hbuf : '\n' ∉ buf) :
    feedAll (buf, acc) frags = feedFragment (buf, acc) frags.flatten := by
  induction frags generalizing buf acc with
  | nil =>
    simp [feedAll, feedFragment, splitNewline_no_nl buf hbuf]
  | cons f fs ih =>
    have hstep : feedAll (buf, acc) (f :: fs) = feedAll (feedFragment (buf, acc) f) fs := by
      simp [feedAll]
    rcases hf : feedFragment (buf, acc) f with ⟨buf', acc'⟩
    have hbuf' : '\n' ∉ buf' := by
      have : buf' = (splitNewline (buf ++ f)).2 := by
        simp only [feedFragment] at hf
        exact (congrArg Prod.fst hf).symm
      rw [this]; exact splitNewline_rest_no_nl _
    rw [hstep, hf, ih buf' acc' hbuf']
    rw [← hf, feedFragment_comp]
    simp

/-! ### Byte-level view of the `data` events

The handler receives raw `Buffer` chunks and decodes each one on its own:
`const output = data.toString()`.  `Buffer.prototype.toString('utf8')`
decodes per chunk with U+FFFD replacement for invalid or truncated
sequences (the WHATWG / V8 "maximal subpart" rule), so a chunk boundary
that falls inside a multi-byte UTF-8 character corrupts that character. -/

/-- The U+FFFD replacement character. -/
def replChar : Char := Char.ofNat 0xFFFD

/-- Whether a byte is a UTF-8 continuation byte. -/
def isCont (b : Nat) : Bool := 0x80 ≤ b && b ≤ 0xBF

/-- Worker for `utf8Decode`, structurally recursive on a fuel bound.  Each
recursive call strictly shortens the byte list and spends one unit of fuel,
so any fuel at least the list's length yields the decode; the `0`/cons case
is unreachable under that bound. -/
def utf8DecodeGo : Nat → List Nat → List Char
  | _, [] => []
  | 0, _ :: _ => []
  | n + 1, b :: rest =>
    if b ≤ 0x7F then
      Char.ofNat b :: utf8DecodeGo n rest
    else if 0xC2 ≤ b && b ≤ 0xDF then
      match rest with
      | [] => [replChar]
      | c1 :: rest1 =>
        if isCont c1 then
          Char.ofNat ((b - 0xC0) * 0x40 + (c1 - 0x80)) :: utf8DecodeGo n rest1
        else
          replChar :: utf8DecodeGo n (c1 :: rest1)
    else if 0xE0 ≤ b && b ≤ 0xEF then
      match rest with
      | [] => [replChar]
      | c1 :: rest1 =>
        if (if b = 0xE0 then 0xA0 else 0x80) ≤ c1
            && c1 ≤ (if b = 0xED then 0x9F else 0xBF) then
          match rest1 with
          | [] => [replChar]
          | c2 :: rest2 =>
            if isCont c2 then
              Char.ofNat ((b - 0xE0) * 0x1000 + (c1 - 0x80) * 0x40 + (c2 - 0x80))
                :: utf8DecodeGo n rest2
            else
              replChar :: utf8DecodeGo n (c2 :: rest2)
        else
          replChar :: utf8DecodeGo n (c1 :: rest1)
    else if 0xF0 ≤ b && b ≤ 0xF4 then
      match rest with
      | [] => [replChar]
      | c1 :: rest1 =>
        if (if b = 0xF0 then 0x90 else 0x80) ≤ c1
            && c1 ≤ (if b = 0xF4 then 0x8F else 0xBF) then
          match rest1 with
          | [] => [replChar]
          | c2 :: rest2 =>
            if isCont c2 then
              match rest2 with
              | [] => [replChar]
              | c3 :: rest3 =>
                if isCont c3 then
                  Char.ofNat ((b - 0xF0) * 0x40000 + (c1 - 0x80) * 0x1000
                      + (c2 - 0x80) * 0x40 + (c3 - 0x80)) :: utf8DecodeGo n rest3
                else
                  replChar :: utf8DecodeGo n (c3 :: rest3)
            else
              replChar :: utf8DecodeGo n (c2 :: rest2)
        else
          replChar :: utf8DecodeGo n (c1 :: rest1)
    else
      replChar :: utf8DecodeGo n rest

/-- `Buffer.prototype.toString('utf8')`: WHATWG UTF-8 decoding with
replacement characters.  Invalid lead bytes and out-of-range continuation
bytes emit one U+FFFD per maximal subpart, decoding then resumes at the
offending byte; a sequence truncated by the end of the buffer emits one
U+FFFD.  The `E0`/`ED`/`F0`/`F4` rows carry the narrowed first-continuation
ranges that exclude overlong forms, surrogates and code points above
U+10FFFF. -/
def utf8Decode (bytes : List Nat) : List Char :=
  utf8DecodeGo bytes.length bytes

/-- One `data` event at byte level: the chunk is UTF-8-decoded on its own
(`data.toString()`), appended to the carry-over buffer, and split. -/
def feedBytes (st : List Char × List (List Char)) (chunk : List Nat) :
    List Char × List (List Char) :=
  feedFragment st (utf8Decode chunk)

/-- Feeding a sequence of raw byte chunks, one `data` event each. -/
def feedBytesAll (st : List Char × List (List Char)) (chunks : List (List Nat)) :
    List Char × List (List Char) :=
  chunks.foldl feedBytes st

/-- Byte-level feeding is character-level feeding of the per-chunk
decodes. -/
lemma feedBytesAll_eq_feedAll (st : List Char × List (List Char))
    (chunks : List (List Nat)) :
    feedBytesAll st chunks = feedAll st (chunks.map utf8Decode) := by
  simp only [feedBytesAll, feedAll, List.foldl_map]
  rfl

/-- C1 counterexample: the bytes of `"é\n"` (`[0xC3, 0xA9, 0x0A]`) cut
inside the two-byte character — fragments `[0xC3]` and `[0xA9, 0x0A]` —
emit the line `[U+FFFD, U+FFFD]`, while the one-block feed emits `"é"`:
per-chunk decoding corrupts a split character, so byte-level
fragmentation-independence fails. -/
theorem byteCut_inside_char_changes_lines_counterexample :
    feedBytesAll ([], []) [[0xC3], [0xA9, 0x0A]]
      = ([], [[replChar, replChar]]) ∧
    feedBytes ([], []) ([0xC3] ++ [0xA9, 0x0A]) = ([], [[Char.ofNat 233]]) ∧
    feedBytesAll ([], []) [[0xC3], [0xA9, 0x0A]]
      ≠ feedBytes ([], []) ([0xC3] ++ [0xA9, 0x0A]) := by
  refine ⟨?_, ?_, ?_⟩ <;> decide

/-- C1 (amended): for every byte stream and every fragmentation whose cuts
fall on UTF-8 character boundaries — equivalently, whose per-chunk decodes
concatenate to the decode of the whole stream — feeding the fragments one
at a time emits exactly the same ordered sequence of complete trimmed lines
as feeding the whole stream in one call, and the retained trailing fragment
never contains a newline (it is only emitted once a later newline completes
it).  A cut inside a multi-byte character falls outside this hypothesis:
each chunk is decoded independently, the split character becomes U+FFFD,
and the emitted lines can differ from the one-block feed. -/
theorem lineParser_charBoundary_fragmentation_independent
    (chunks : List (List Nat))
    (hcuts : (chunks.map utf8Decode).flatten = utf8Decode chunks.flatten) :
    feedBytesAll ([], []) chunks = feedBytes ([], []) chunks.flatten ∧
    '\n' ∉ (feedBytesAll ([], []) chunks).1 := by
  have h1 : feedBytesAll ([], []) chunks = feedAll ([], []) (chunks.map utf8Decode) :=
    feedBytesAll_eq_feedAll _ _
  have h2 := feedAll_eq_feedFragment_flatten (chunks.map utf8Decode) [] [] (by simp)
  rw [h1, h2, hcuts]
  exact ⟨rfl, splitNewline_rest_no_nl _⟩

/-- Witness for `lineParser_charBoundary_fragmentation_independent`: the
same `"é\na"` bytes cut at the character boundary after `é` behave exactly
like the one-block feed. -/
theorem lineParser_charBoundary_fragmentation_independent_witness :
    feedBytesAll ([], []) [[0xC3, 0xA9], [0x0A, 0x61]]
      = feedBytes ([], []) [0xC3, 0xA9, 0x0A, 0x61] ∧
    '\n' ∉ (feedBytesAll ([], []) [[0xC3, 0xA9], [0x0A, 0x61]]).1 := by
  have h := lineParser_charBoundary_fragmentation_independent
    [[0xC3, 0xA9], [0x0A, 0x61]] (by decide)
  exact ⟨h.1, h.2⟩

/-! ### JavaScript string primitives used by the bridge's line dispatcher -/

/-- JavaScript `s.split(sep)` for a single-character separator: every part in
order (the result is never empty; the `[]` case of the inner match is
unreachable). -/
def jsSplit (sep : Char) : List Char → List (List Char)
  | [] => [[]]
  | c :: cs =>
    match jsSplit sep cs with
    | l :: ls => if c = sep then [] :: l :: ls else (c :: l) :: ls
    | [] => [[c]]

/-- JavaScript `s.indexOf(c, fromIndex)`: `-1` when absent; a negative
`fromIndex` is clamped to `0` (`Int.toNat`). -/
def jsIndexOfFrom (s : List Char) (c : Char) (start : Int) : Int :=
  match (s.drop start.toNat).findIdx? (fun x => x = c) with
  | some i => (start.toNat : Int) + i
  | none => -1

/-- JavaScript `s.substring(a, b)`: both indices clamped to `[0, length]` and
swapped when out of order. -/
def jsSubstring (s : List Char) (a b : Int) : List Char :=
  let len : Int := s.length
  let a' := (max 0 (min a len)).toNat
  let b' := (max 0 (min b len)).toNat
  (s.take (max a' b')).drop (min a' b')

/-- Decimal digit value. -/
def digitVal? (c : Char) : Option Nat :=
  if '0' ≤ c ∧ c ≤ '9' then some (c.toNat - '0'.toNat) else none

/-- Hexadecimal digit value. -/
def hexVal? (c : Char) : Option Nat :=
  if '0' ≤ c ∧ c ≤ '9' then some (c.toNat - '0'.toNat)
  else if 'a' ≤ c ∧ c ≤ 'f' then some (c.toNat - 'a'.toNat + 10)
  else if 'A' ≤ c ∧ c ≤ 'F' then some (c.toNat - 'A'.toNat + 10)
  else none

/-- Maximal prefix of digit values. -/
def takeDigits (val? : Char → Option Nat) : List Char → List Nat
  | [] => []
  | c :: cs =>
    match val? c with
    | some d => d :: takeDigits val? cs
    | none => []

/-- Digit list to value, most significant first. -/
def digitsToNat (base : Nat) (ds : List Nat) : Nat :=
  ds.foldl (fun a d => a * base + d) 0

/-- The optional sign at the head of a `parseInt` input: whether the value is
negated, and the rest of the string. -/
def jsStripSign (s : List Char) : Bool × List Char :=
  if s.headD ' ' = '-' then (true, s.tail)
  else if s.headD ' ' = '+' then (false, s.tail)
  else (false, s)

/-- Whether the (sign-stripped) input selects radix 16 via a `0x`/`0X`
prefix. -/
def jsHexRadix (s : List Char) : Bool :=
  s.headD ' ' = '0' && (s.tail.headD ' ' = 'x' || s.tail.headD ' ' = 'X')

/-- JavaScript `parseInt(s)` with no radix argument: skip leading whitespace,
optional sign, `0x`/`0X` selects base 16, then the maximal digit prefix;
`none` models `NaN` (no digits). -/
def jsParseInt (s0 : List Char) : Option Int :=
  let s1 := s0.dropWhile isJsWhitespace
  let sg := jsStripSign s1
  let hex := jsHexRadix sg.2
  let s3 := if hex then sg.2.drop 2 else sg.2
  let ds := takeDigits (if hex then hexVal? else digitVal?) s3
  if ds = [] then none
  else some (if sg.1 then -((digitsToNat (if hex then 16 else 10) ds : Nat) : Int)
             else ((digitsToNat (if hex then 16 else 10) ds : Nat) : Int))

/-- Base64 alphabet value of a character. -/
def b64Val? (c : Char) : Option Nat :=
  if 'A' ≤ c ∧ c ≤ 'Z' then some (c.toNat - 'A'.toNat)
  else if 'a' ≤ c ∧ c ≤ 'z' then some (c.toNat - 'a'.toNat + 26)
  else if '0' ≤ c ∧ c ≤ '9' then some (c.toNat - '0'.toNat + 52)
  else if c = '+' then some 62
  else if c = '/' then some 63
  else none

/-- Sextet stream of a base64 string: `'='` terminates, characters outside
the alphabet are skipped (Node's lenient decoder). -/
def b64Sextets : List Char → List Nat
  | [] => []
  | c :: cs =>
    if c = '=' then []
    else
      match b64Val? c with
      | some v => v :: b64Sextets cs
      | none => b64Sextets cs

/-- Repack sextets into bytes; a trailing group of 2 or 3 sextets yields 1 or
2 bytes, a lone trailing sextet yields none. -/
def sextetsToBytes : List Nat → List Nat
  | a :: b :: c :: d :: rest =>
      (a * 4 + b / 16) :: ((b % 16) * 16 + c / 4) :: ((c % 4) * 64 + d) :: sextetsToBytes rest
  | [a, b] => [a * 4 + b / 16]
  | [a, b, c] => [a * 4 + b / 16, (b % 16) * 16 + c / 4]
  | _ => []

/-- `Buffer.from(s, 'base64')` as a byte list. -/
def base64Decode (s : List Char) : List Nat :=
  sextetsToBytes (b64Sextets s)

/-- Node `buf.writeUInt32LE(value, 0)` on a 4-byte buffer, where `none`
models a `NaN` value.  Node's `checkInt` throws `ERR_OUT_OF_RANGE` only when
`value > 0xffffffff || value < 0`; `NaN` fails both comparisons, and the
subsequent `>>>` shifts and `Uint8Array` stores coerce it to `0`, so a `NaN`
index silently writes `[0,0,0,0]`. -/
def writeUInt32LE : Option Int → Except String (List Nat)
  | none => Except.ok [0, 0, 0, 0]
  | some v =>
    if v < 0 ∨ 4294967295 < v then Except.error "ERR_OUT_OF_RANGE"
    else
      let n := v.toNat
      Except.ok [n % 256, n / 256 % 256, n / 256 ^ 2 % 256, n / 256 ^ 3 % 256]

/-- The little-endian 4-byte encoding produced for an in-range index. -/
def le32 (n : Nat) : List Nat :=
  [n % 256, n / 256 % 256, n / 256 ^ 2 % 256, n / 256 ^ 3 % 256]

/-! ### Process Bridge

State and effects of `server.js`: the globals `messageQueue`,
`outputBuffer`, `pythonReady`, `pendingMessages`, the stdout line dispatcher,
and the HTTP routes `/text-message`, `/tts-setting`, `/text-output`.
Side effects (worker stdin writes, WebSocket and SSE broadcasts) are returned
as an ordered effect list. -/

/-- An entry of `pendingMessages`: `{ message, enableTts }`. -/
structure PendingMsg where
  message : List Char
  enableTts : Bool
deriving DecidableEq, Repr

/-- Structured JSON frames sent through `wsBroadcastJSON`. -/
inductive WsEvent
  | kokoroReady
  | interruptAck
  | audioStart (responseId : List Char) (sampleRate : Int) (channels bitDepth : Nat)
  | audioEnd (responseId : List Char)
deriving DecidableEq, Repr

/-- Observable side effects of the bridge, in program order. -/
inductive Effect
  | stdinWrite (line : List Char)                 -- pythonProcess.stdin.write(...)
  | wsJson (event : WsEvent)                      -- wsBroadcastJSON(...)
  | wsBinary (frame : List Nat)                   -- wsBroadcastBinary(...)
  | sseAudioFile (file : List Char)                   -- broadcastEvent('audio', {file})
deriving DecidableEq, Repr

/-- The bridge's mutable globals. -/
structure Bridge where
  messageQueue : List (List Char)
  outputBuffer : List Char
  pythonReady : Bool
  pendingMessages : List PendingMsg
deriving DecidableEq, Repr

/-- The fresh state at server start. -/
def initBridge : Bridge := ⟨[], [], false, []⟩

/-- The line written for a pending message on the readiness flush (and,
identically, for a direct `/text-message` send):
`` `${prefix}${msg.message}\n` `` with `prefix` chosen by `enableTts`. -/
def serializePending (m : PendingMsg) : List Char :=
  (if m.enableTts then String.toList "TEXT_TTS:" else String.toList "TEXT:")
    ++ m.message ++ ['\n']

/-- JavaScript `s.startsWith(p)` (here `jsStartsWith p s`): character-wise
comparison of the prefix. -/
def jsStartsWith : List Char → List Char → Bool
  | [], _ => true
  | _ :: _, [] => false
  | p :: ps, c :: cs => (p = c) && jsStartsWith ps cs

/-- `parseInt(parts[1]) || 24000`: `NaN` (including a missing part) and `0`
fall back to the default. -/
def rateOr24000 : Option (List Char) → Int
  | none => 24000
  | some p1 =>
    match jsParseInt p1 with
    | none => 24000
    | some v => if v = 0 then 24000 else v

/-- The prefix dispatch of the `pythonProcess.stdout` complete-line handler
on an already-trimmed line.  Returns the successor state and the effects, or
an error when the underlying Node call would throw
(`writeUInt32LE` with an out-of-range numeric index). -/
def dispatchLine (st : Bridge) (trimmed : List Char) : Except String (Bridge × List Effect) :=
  if trimmed = String.toList "READY" then
    Except.ok ({ st with pythonReady := true, pendingMessages := [] },
      st.pendingMessages.map (fun m => Effect.stdinWrite (serializePending m)))
  else if trimmed = String.toList "KOKORO_READY" then
    Except.ok (st, [Effect.wsJson WsEvent.kokoroReady])
  else if trimmed = String.toList "INTERRUPT_ACK" then
    Except.ok (st, [Effect.wsJson WsEvent.interruptAck])
  else if jsStartsWith (String.toList "STREAM_START:") trimmed then
    let parts := jsSplit ':' (trimmed.drop 13)
    let responseId := parts.headD []
    let sampleRate := rateOr24000 (parts.drop 1).head?
    Except.ok (st, [Effect.wsJson (WsEvent.audioStart responseId sampleRate 1 16)])
  else if jsStartsWith (String.toList "STREAM_CHUNK:") trimmed then
    let secondColon := jsIndexOfFrom trimmed ':' 13
    let thirdColon := jsIndexOfFrom trimmed ':' (secondColon + 1)
    let chunkIndex := jsParseInt (jsSubstring trimmed (secondColon + 1) thirdColon)
    let b64Data := jsSubstring trimmed (thirdColon + 1) trimmed.length
    let pcmBuffer := base64Decode b64Data
    match writeUInt32LE chunkIndex with
    | Except.error e => Except.error e
    | Except.ok header => Except.ok (st, [Effect.wsBinary (header ++ pcmBuffer)])
  else if jsStartsWith (String.toList "STREAM_END:") trimmed then
    Except.ok (st, [Effect.wsJson (WsEvent.audioEnd (trimmed.drop 11))])
  else if jsStartsWith (String.toList "Audio:") trimmed then
    Except.ok (st, [Effect.sseAudioFile (jsTrim (trimmed.drop 6))])
  else if trimmed ≠ [] then
    Except.ok ({ st with messageQueue := st.messageQueue ++ [trimmed] }, [])
  else
    Except.ok (st, [])

/-- The body of the `pythonProcess.stdout` complete-line handler for one raw
line: `const trimmed = line.trim()` followed by the prefix dispatch. -/
def handleLine (st : Bridge) (line : List Char) : Except String (Bridge × List Effect) :=
  dispatchLine st (jsTrim line)

/-- HTTP response bodies the modelled routes produce. -/
inductive RespBody
  | textBody (s : List Char)          -- res.send('...')
  | jsonSuccess (enabled : Bool)      -- res.json({ success: true, enabled })
deriving DecidableEq, Repr

/-- An HTTP response: status code (200 for a bare `res.send`) and body. -/
structure HttpResp where
  status : Nat
  body : RespBody
deriving DecidableEq, Repr

/-- `app.post('/text-message')`: empty (falsy) message is a 400; while ready
the prefixed line goes straight to the worker, otherwise the message is
queued. -/
def postTextMessage (st : Bridge) (message : List Char) (enableTts : Bool) :
    Bridge × List Effect × HttpResp :=
  if message = [] then
    (st, [], ⟨400, RespBody.textBody (String.toList "No message provided")⟩)
  else if st.pythonReady then
    (st, [Effect.stdinWrite (serializePending ⟨message, enableTts⟩)],
     ⟨200, RespBody.textBody (String.toList "Message sent")⟩)
  else
    ({ st with pendingMessages := st.pendingMessages ++ [⟨message, enableTts⟩] }, [],
     ⟨200, RespBody.textBody (String.toList "Message queued")⟩)

/-- `app.post('/tts-setting')` for a well-typed boolean body: written through
while ready, rejected with 503 (and not queued) otherwise. -/
def postTtsSetting (st : Bridge) (enabled : Bool) :
    Bridge × List Effect × HttpResp :=
  if st.pythonReady then
    (st,
     [Effect.stdinWrite (String.toList "TTS_SETTING:"
        ++ (if enabled then String.toList "on" else String.toList "off") ++ ['\n'])],
     ⟨200, RespBody.jsonSuccess enabled⟩)
  else
    (st, [], ⟨503, RespBody.textBody (String.toList "Python not ready")⟩)

/-- `app.get('/text-output')`: drain the whole queue, newline-joined, or send
the empty string. -/
def getTextOutput (st : Bridge) : Bridge × List Char :=
  if 0 < st.messageQueue.length then
    ({ st with messageQueue := [] }, List.intercalate ['\n'] st.messageQueue)
  else
    (st, [])

/-- Submitting a sequence of `/text-message` requests, accumulating effects. -/
def submitAll (st : Bridge) (msgs : List (List Char × Bool)) : Bridge × List Effect :=
  msgs.foldl
    (fun acc m =>
      let r := postTextMessage acc.1 m.1 m.2
      (r.1, acc.2 ++ r.2.1))
    (st, [])

/-- C9: one pull on `/text-output` returns all accumulated lines
newline-joined and leaves the queue empty; an immediately following pull (and
any pull on an empty queue) returns the empty string.  Every queued line is
returned by exactly the one pull that drains it. -/
theorem textOutput_drains_atomically (st : Bridge) :
    getTextOutput st =
      ({ st with messageQueue := [] }, List.intercalate ['\n'] st.messageQueue) ∧
    (getTextOutput (getTextOutput st).1).2 = [] ∧
    (getTextOutput (getTextOutput st).1).1.messageQueue = [] := by
  have h1 : getTextOutput st =
      ({ st with messageQueue := [] }, List.intercalate ['\n'] st.messageQueue) := by
    rcases st with ⟨mq, ob, pr, pm⟩
    by_cases h : 0 < mq.length
    · simp [getTextOutput, h]
    · have hq : mq = [] := by
        cases hq : mq with
        | nil => rfl
        | cons x xs => rw [hq] at h; simp at h
      subst hq
      simp [getTextOutput, List.intercalate]
  refine ⟨h1, ?_, ?_⟩ <;> rw [h1] <;> simp [getTextOutput]

/-- C6 counterexample: a speech-setting command submitted while the bridge is
NotReady is not appended to the Pending Command Queue and does not get a
"queued" acknowledgment — the route answers 503 "Python not ready" and leaves
the state untouched. -/
theorem ttsSetting_notReady_rejected_counterexample :
    (postTtsSetting initBridge true).1 = initBridge ∧
    (postTtsSetting initBridge true).1.pendingMessages = [] ∧
    (postTtsSetting initBridge true).2.1 = [] ∧
    (postTtsSetting initBridge true).2.2 =
      ⟨503, RespBody.textBody (String.toList "Python not ready")⟩ ∧
    (postTtsSetting initBridge true).2.2.status ≠ 200 := by
  refine ⟨rfl, rfl, rfl, rfl, ?_⟩
  decide

/-- C6 (amended): a text message submitted while NotReady is appended to the
Pending Command Queue with a "Message queued" acknowledgment, but a
speech-setting command while NotReady is rejected with 503 "Python not ready"
and is not queued; while Ready, both are written immediately to the worker's
input and a success acknowledgment is returned. -/
theorem outboundCommand_acks (st : Bridge) (msg : List Char) (tts enabled : Bool)
    (hmsg : msg ≠ []) :
    (st.pythonReady = false →
      postTextMessage st msg tts =
        ({ st with pendingMessages := st.pendingMessages ++ [⟨msg, tts⟩] }, [],
         ⟨200, RespBody.textBody (String.toList "Message queued")⟩) ∧
      postTtsSetting st enabled =
        (st, [], ⟨503, RespBody.textBody (String.toList "Python not ready")⟩)) ∧
    (st.pythonReady = true →
      postTextMessage st msg tts =
        (st, [Effect.stdinWrite (serializePending ⟨msg, tts⟩)],
         ⟨200, RespBody.textBody (String.toList "Message sent")⟩) ∧
      postTtsSetting st enabled =
        (st,
         [Effect.stdinWrite (String.toList "TTS_SETTING:"
            ++ (if enabled then String.toList "on" else String.toList "off") ++ ['\n'])],
         ⟨200, RespBody.jsonSuccess enabled⟩)) := by
  constructor <;> intro h <;>
    exact ⟨by simp [postTextMessage, hmsg, h], by simp [postTtsSetting, h]⟩

/-- Witness for `outboundCommand_acks` at a concrete NotReady state. -/
theorem outboundCommand_acks_witness :
    postTextMessage initBridge (String.toList "hi") false =
      ({ initBridge with pendingMessages := [⟨String.toList "hi", false⟩] }, [],
       ⟨200, RespBody.textBody (String.toList "Message queued")⟩) ∧
    postTtsSetting initBridge true =
      (initBridge, [], ⟨503, RespBody.textBody (String.toList "Python not ready")⟩) := by
  have h := (outboundCommand_acks initBridge (String.toList "hi") false true
    (by decide)).1 rfl
  exact ⟨by rw [h.1]; rfl, h.2⟩

/-- While NotReady, a run of non-empty `/text-message` submissions only grows
the Pending Command Queue, in order, with no worker writes. -/
lemma submitAll_notReady (st : Bridge) (msgs : List (List Char × Bool))
    (hnr : st.pythonReady = false) (hm : ∀ m ∈ msgs, m.1 ≠ []) :
    submitAll st msgs =
      ({ st with pendingMessages :=
          st.pendingMessages ++ msgs.map (fun m => PendingMsg.mk m.1 m.2) }, []) := by
  induction msgs generalizing st with
  | nil => simp [submitAll]
  | cons m ms ih =>
    have hm1 : m.1 ≠ [] := hm m (List.mem_cons_self m ms)
    have hms : ∀ x ∈ ms, x.1 ≠ [] := fun x hx => hm x (List.mem_cons_of_mem m hx)
    have hstep : submitAll st (m :: ms) =
        submitAll { st with pendingMessages := st.pendingMessages ++ [⟨m.1, m.2⟩] } ms := by
      simp [submitAll, postTextMessage, hnr, hm1]
    rw [hstep,
      ih { st with pendingMessages := st.pendingMessages ++ [⟨m.1, m.2⟩] } hnr hms]
    simp

/-- C2: every text command submitted while the bridge is NotReady is appended
to the Pending Command Queue (and nothing is written to the worker); on the
first `READY` line every queued command is written to the worker's stdin as
one newline-terminated line, in submission order, each exactly once, after
which the queue is empty. -/
theorem pendingQueue_flush_on_ready (st : Bridge) (msgs : List (List Char × Bool))
    (hnr : st.pythonReady = false) (hm : ∀ m ∈ msgs, m.1 ≠ []) :
    (submitAll st msgs).1.pendingMessages
        = st.pendingMessages ++ msgs.map (fun m => PendingMsg.mk m.1 m.2) ∧
    (submitAll st msgs).2 = [] ∧
    handleLine (submitAll st msgs).1 (String.toList "READY") =
      Except.ok
        ({ (submitAll st msgs).1 with pythonReady := true, pendingMessages := [] },
         (st.pendingMessages ++ msgs.map (fun m => PendingMsg.mk m.1 m.2)).map
           (fun m => Effect.stdinWrite (serializePending m))) := by
  have h := submitAll_notReady st msgs hnr hm
  rw [h]
  exact ⟨rfl, rfl, rfl⟩

/-- Witness for `pendingQueue_flush_on_ready`: two commands queued before
readiness are flushed in order with the right prefixes. -/
theorem pendingQueue_flush_on_ready_witness :
    (submitAll initBridge [(String.toList "a", false), (String.toList "b", true)]).2 = [] ∧
    handleLine
        (submitAll initBridge [(String.toList "a", false), (String.toList "b", true)]).1
        (String.toList "READY") =
      Except.ok
        ({ (submitAll initBridge
              [(String.toList "a", false), (String.toList "b", true)]).1 with
            pythonReady := true, pendingMessages := [] },
         [Effect.stdinWrite (String.toList "TEXT:a" ++ ['\n']),
          Effect.stdinWrite (String.toList "TEXT_TTS:b" ++ ['\n'])]) := by
  have h := pendingQueue_flush_on_ready initBridge
    [(String.toList "a", false), (String.toList "b", true)] rfl (by decide)
  refine ⟨h.2.1, ?_⟩
  rw [h.2.2]
  rfl

/-! ### Broadcast Hub

`sseClients` (push channel) and `wsClients` (binary stream channel).
`broadcastEvent` runs `sseClients.forEach(client => client.res.write(...))`:
every client is visited unconditionally and independently, and a write to an
already-closed connection is dropped by Node's stream layer (the write
returns `false`; no exception is thrown), so one dead client cannot stop the
loop.  `wsBroadcastJSON` / `wsBroadcastBinary` guard each send with
`ws.readyState === 1`, skipping non-open clients. -/

/-- An SSE push client: its id and whether its connection is still open. -/
structure SseClient where
  id : Nat
  connOpen : Bool
deriving DecidableEq, Repr

/-- A WebSocket stream client: its id and `readyState` (1 = OPEN). -/
structure WsClient where
  id : Nat
  readyState : Nat
deriving DecidableEq, Repr

/-- One `broadcastEvent` call: per client, in registry order, its id and
whether the write reached it (an attempt is made for every client). -/
def broadcastEvent (clients : List SseClient) : List (Nat × Bool) :=
  clients.map (fun c => (c.id, c.connOpen))

/-- One `wsBroadcastJSON`/`wsBroadcastBinary` call: the ids the frame was
sent to (exactly the clients whose `readyState` is 1). -/
def wsBroadcastSend (clients : List WsClient) : List Nat :=
  clients.filterMap (fun w => if w.readyState = 1 then some w.id else none)

/-- C8: on both hubs, a failed or closed client never prevents delivery to
any other registered client — every open client receives each broadcast; in
particular, with 3 push clients of which client 2 is closed, clients 1 and 3
still receive the event (and likewise on the stream channel). -/
theorem broadcast_isolates_failed_clients (sse : List SseClient) (ws : List WsClient) :
    (∀ c ∈ sse, c.connOpen = true → (c.id, true) ∈ broadcastEvent sse) ∧
    (∀ w ∈ ws, w.readyState = 1 → w.id ∈ wsBroadcastSend ws) ∧
    broadcastEvent [⟨1, true⟩, ⟨2, false⟩, ⟨3, true⟩]
      = [(1, true), (2, false), (3, true)] ∧
    wsBroadcastSend [⟨1, 1⟩, ⟨2, 3⟩, ⟨3, 1⟩] = [1, 3] := by
  refine ⟨?_, ?_, rfl, rfl⟩
  · intro c hc hopen
    exact List.mem_map.2 ⟨c, hc, by rw [hopen]⟩
  · intro w hw h1
    exact List.mem_filterMap.2 ⟨w, hw, by rw [if_pos h1]⟩

/-- Witness for `broadcast_isolates_failed_clients`: clients 1 and 3 receive
even though client 2 is closed. -/
theorem broadcast_isolates_failed_clients_witness :
    ((1 : Nat), true) ∈ broadcastEvent [⟨1, true⟩, ⟨2, false⟩, ⟨3, true⟩] ∧
    ((3 : Nat), true) ∈ broadcastEvent [⟨1, true⟩, ⟨2, false⟩, ⟨3, true⟩] ∧
    (3 : Nat) ∈ wsBroadcastSend [⟨1, 1⟩, ⟨2, 3⟩, ⟨3, 1⟩] := by
  have h := broadcast_isolates_failed_clients
    [⟨1, true⟩, ⟨2, false⟩, ⟨3, true⟩] [⟨1, 1⟩, ⟨2, 3⟩, ⟨3, 1⟩]
  exact ⟨h.1 ⟨1, true⟩ (by decide) rfl, h.1 ⟨3, true⟩ (by decide) rfl,
    h.2.1 ⟨3, 1⟩ (by decide) rfl⟩

/-! ### Stream Assembler / Playback Scheduler (`StreamingAudioPlayer`)

The Web Audio clock (`audioContext.currentTime`, seconds) is passed to each
operation as `now : ℚ`; a chunk is represented by its int16 sample count
(`new Int16Array(pcmData).length`), so a scheduled buffer's duration is
`samples / sampleRate`.  `ctxOpen` models `this.audioContext !== null`;
`endTimeoutDelay` the pending (uncleared) `setTimeout` delay in
milliseconds. -/

/-- The fields of `StreamingAudioPlayer`. -/
structure Player where
  ctxOpen : Bool
  sampleRate : ℚ
  nextPlayTime : ℚ
  isPlaying : Bool
  scheduledSources : List (ℚ × ℚ)   -- (scheduled start, duration) per source node
  endTimeoutDelay : Option ℚ
  lastChunkDuration : ℚ
  chunkBuffer : List Nat            -- sample counts of buffered, unscheduled chunks
  playbackStarted : Bool
  minBufferChunks : Nat
deriving DecidableEq, Repr

/-- Observable playback events. -/
inductive PEvent
  | sourceStart (time dur : ℚ)   -- source.start(time) of a unit of this duration
  | sourceStop (time dur : ℚ)    -- source.stop() on the unit scheduled at (time, dur)
  | playbackEnd                  -- the onPlaybackEnd callback fires
deriving DecidableEq, Repr

/-- The constructor: fresh player, no context, defaults. -/
def initPlayer : Player :=
  { ctxOpen := false
    sampleRate := 24000
    nextPlayTime := 0
    isPlaying := false
    scheduledSources := []
    endTimeoutDelay := none
    lastChunkDuration := 0
    chunkBuffer := []
    playbackStarted := false
    minBufferChunks := 3 }

/-- `_cleanup()`: drop the source list and close/null the context. -/
def cleanup (p : Player) : Player :=
  { p with scheduledSources := [], ctxOpen := false }

/-- `_scheduleChunk(pcmInt16Data)` at clock value `now`: never schedule in
the past, start the unit at `max nextPlayTime now`, advance `nextPlayTime` by
the buffer's duration, remember the source, and clear any pending end
timeout. -/
def scheduleChunk (now : ℚ) (n : Nat) (p : Player) : Player × List PEvent :=
  let dur : ℚ := (n : ℚ) / p.sampleRate
  let start := if p.nextPlayTime < now then now else p.nextPlayTime
  ({ p with
      nextPlayTime := start + dur
      lastChunkDuration := dur
      scheduledSources := p.scheduledSources ++ [(start, dur)]
      endTimeoutDelay := none },
   [PEvent.sourceStart start dur])

/-- `_flushBufferAndStart()` at clock value `now`: mark playback started,
set `nextPlayTime` to `now + 0.02`, schedule every buffered chunk
back-to-back, then clear the buffer. -/
def flushBufferAndStart (now : ℚ) (p : Player) : Player × List PEvent :=
  let p1 := { p with playbackStarted := true, nextPlayTime := now + 1/50 }
  let r := p1.chunkBuffer.foldl
    (fun (acc : Player × List PEvent) n =>
      let s := scheduleChunk now n acc.1
      (s.1, acc.2 ++ s.2))
    (p1, [])
  ({ r.1 with chunkBuffer := [] }, r.2)

/-- `queueChunk(pcmInt16Data)` at clock value `now`: ignored with no context
or while not playing; buffered before the warm-up threshold, flushing once
the buffer reaches `_minBufferChunks`; scheduled directly afterwards. -/
def queueChunk (now : ℚ) (n : Nat) (p : Player) : Player × List PEvent :=
  if p.ctxOpen = false ∨ p.isPlaying = false then (p, [])
  else if p.playbackStarted = false then
    let p1 := { p with chunkBuffer := p.chunkBuffer ++ [n] }
    if p.minBufferChunks ≤ p1.chunkBuffer.length then flushBufferAndStart now p1
    else (p1, [])
  else scheduleChunk now n p

/-- `endStream()` at clock value `now`: flush a not-yet-started buffer first
(this precedes the null-context guard in the source, and reading
`currentTime` on a null context would throw — hence the `Except`); then, with
a context, arm the end timer for the remaining scheduled time plus a 50 ms
safety margin. -/
def endStream (now : ℚ) (p : Player) : Except Unit (Player × List PEvent) :=
  if p.playbackStarted = false ∧ p.chunkBuffer ≠ [] then
    if p.ctxOpen = false then Except.error ()
    else
      let r := flushBufferAndStart now p
      let remaining := max 0 (r.1.nextPlayTime - now)
      Except.ok ({ r.1 with endTimeoutDelay := some (remaining * 1000 + 50) }, r.2)
  else if p.ctxOpen = false then Except.ok (p, [])
  else
    let remaining := max 0 (p.nextPlayTime - now)
    Except.ok ({ p with endTimeoutDelay := some (remaining * 1000 + 50) }, [])

/-- The body of the timer armed by `endStream`: stop playing, clean up, fire
the completion callback (the stale timer handle itself is not cleared). -/
def fireEndTimeout (p : Player) : Player × List PEvent :=
  (cleanup { p with isPlaying := false }, [PEvent.playbackEnd])

/-- `interrupt()`: a no-op unless playing; otherwise clear the pending end
timer, stop every scheduled source (stopping an already-finished node throws
and is swallowed by the `try`), clean up, and fire the completion callback. -/
def interrupt (p : Player) : Player × List PEvent :=
  if p.isPlaying = false then (p, [])
  else
    (cleanup { p with endTimeoutDelay := none, isPlaying := false },
     p.scheduledSources.map (fun s => PEvent.sourceStop s.1 s.2) ++ [PEvent.playbackEnd])

/-- `dispose()`: clear the timer, stop all sources, drop them, close the
context, reset `isPlaying` and `nextPlayTime`; never fires the callback. -/
def dispose (p : Player) : Player × List PEvent :=
  ({ p with endTimeoutDelay := none, scheduledSources := [], ctxOpen := false,
            isPlaying := false, nextPlayTime := 0 },
   p.scheduledSources.map (fun s => PEvent.sourceStop s.1 s.2))

/-- `startStream(responseId, sampleRate)` (the response id is unused by the
body): dispose any previous session, then open a fresh context with
`sampleRate || 24000` and reset the per-session state. -/
def startStream (sampleRate : ℚ) (p : Player) : Player × List PEvent :=
  let r := dispose p
  ({ r.1 with
      sampleRate := if sampleRate = 0 then 24000 else sampleRate
      ctxOpen := true
      isPlaying := true
      scheduledSources := []
      lastChunkDuration := 0
      chunkBuffer := []
      playbackStarted := false }, r.2)

/-- C5: interrupting a playing session stops every scheduled-but-not-yet
finished playback unit (a stop is issued to every scheduled source; stopping
a finished one is a swallowed no-op), cancels the pending end timer, and
fires the completion callback exactly once; a second interrupt immediately
after is a pure no-op. -/
theorem interrupt_idempotent_single_callback (p : Player) (h : p.isPlaying = true) :
    interrupt p =
      (cleanup { p with endTimeoutDelay := none, isPlaying := false },
       p.scheduledSources.map (fun s => PEvent.sourceStop s.1 s.2)
         ++ [PEvent.playbackEnd]) ∧
    (interrupt p).2.count PEvent.playbackEnd = 1 ∧
    (interrupt p).1.endTimeoutDelay = none ∧
    (interrupt p).1.isPlaying = false ∧
    (interrupt p).1.ctxOpen = false ∧
    (interrupt p).1.scheduledSources = [] ∧
    interrupt (interrupt p).1 = ((interrupt p).1, []) := by
  have hi : interrupt p =
      (cleanup { p with endTimeoutDelay := none, isPlaying := false },
       p.scheduledSources.map (fun s => PEvent.sourceStop s.1 s.2)
         ++ [PEvent.playbackEnd]) := by
    simp [interrupt, h]
  rw [hi]
  refine ⟨rfl, ?_, rfl, rfl, rfl, rfl, ?_⟩
  · have hnot : PEvent.playbackEnd ∉
        p.scheduledSources.map (fun s => PEvent.sourceStop s.1 s.2) := by
      simp [List.mem_map]
    simp [List.count_append, List.count_eq_zero.2 hnot]
  · simp [interrupt, cleanup]

/-- A concrete mid-stream player: playing, context open, one scheduled
source, end timer armed. -/
def playingPlayer : Player :=
  { initPlayer with
      isPlaying := true
      ctxOpen := true
      scheduledSources := [((0 : ℚ), (1 : ℚ))]
      endTimeoutDelay := some 5 }

/-- Witness for `interrupt_idempotent_single_callback` on a concrete playing
session with one scheduled source and an armed end timer. -/
theorem interrupt_idempotent_single_callback_witness :
    (interrupt playingPlayer).2.count PEvent.playbackEnd = 1 ∧
    interrupt (interrupt playingPlayer).1 = ((interrupt playingPlayer).1, []) := by
  have h := interrupt_idempotent_single_callback playingPlayer rfl
  exact ⟨h.2.1, h.2.2.2.2.2.2⟩

/-- C10: while no stream session is active — no open audio context or not
playing, which covers the fresh player, the state after an interrupt, and
the state after normal completion — `queueChunk` is a strict no-op: nothing
is buffered or scheduled and the state is returned unchanged. -/
theorem queueChunk_inactive_noop (p : Player) (t : ℚ) (n : Nat) :
    (p.ctxOpen = false ∨ p.isPlaying = false → queueChunk t n p = (p, [])) ∧
    queueChunk t n initPlayer = (initPlayer, []) ∧
    (p.isPlaying = true → queueChunk t n (interrupt p).1 = ((interrupt p).1, [])) ∧
    queueChunk t n (fireEndTimeout p).1 = ((fireEndTimeout p).1, []) := by
  refine ⟨?_, rfl, ?_, ?_⟩
  · intro h
    simp only [queueChunk, if_pos h]
  · intro h
    have hstop : (interrupt p).1.isPlaying = false := by
      simp [interrupt, h, cleanup]
    simp only [queueChunk, if_pos (Or.inr hstop)]
  · have hstop : (fireEndTimeout p).1.isPlaying = false := rfl
    simp only [queueChunk, if_pos (Or.inr hstop)]

/-- Witness for `queueChunk_inactive_noop`: a chunk on the fresh player and a
chunk after an interrupt are both dropped. -/
theorem queueChunk_inactive_noop_witness :
    queueChunk 0 480 initPlayer = (initPlayer, []) ∧
    queueChunk 0 480 (interrupt playingPlayer).1 = ((interrupt playingPlayer).1, []) := by
  have h1 := queueChunk_inactive_noop initPlayer 0 480
  have h2 := queueChunk_inactive_noop playingPlayer 0 480
  exact ⟨h1.1 (Or.inl rfl), h2.2.2.1 rfl⟩

/-- When the clock has not passed `nextPlayTime`, a chunk is scheduled
exactly at `nextPlayTime` (gapless back-to-back scheduling). -/
lemma scheduleChunk_no_gap (now : ℚ) (n : Nat) (p : Player) (h : now ≤ p.nextPlayTime) :
    scheduleChunk now n p =
      ({ p with
          nextPlayTime := p.nextPlayTime + (n : ℚ) / p.sampleRate
          lastChunkDuration := (n : ℚ) / p.sampleRate
          scheduledSources := p.scheduledSources ++ [(p.nextPlayTime, (n : ℚ) / p.sampleRate)]
          endTimeoutDelay := none },
       [PEvent.sourceStart p.nextPlayTime ((n : ℚ) / p.sampleRate)]) := by
  simp only [scheduleChunk]
  rw [if_neg (not_lt.2 h)]

/-- C4: in a fresh playback session, chunks arriving before the warm-up
threshold of 3 are buffered without scheduling; the 3rd chunk triggers
back-to-back scheduling of all buffered chunks (starting 0.02 s after the
clock) and clears the buffer; a session that got only chunks 0 and 1
followed by stream-end flushes and schedules both immediately, arms the
completion timer for the remaining scheduled duration (plus the 50 ms safety
margin), and the timer body fires the completion callback. -/
theorem player_warmup_and_short_stream
    (sr : ℚ) (hsr : 0 < sr) (n0 n1 n2 : Nat) (t0 t1 t2 te : ℚ)
    (p0 p1 p2 : Player) (e1 e2 : List PEvent)
    (hp0 : p0 = (startStream sr initPlayer).1)
    (h1 : (p1, e1) = queueChunk t0 n0 p0)
    (h2 : (p2, e2) = queueChunk t1 n1 p1) :
    e1 = [] ∧ p1.chunkBuffer = [n0] ∧ p1.scheduledSources = [] ∧
    e2 = [] ∧ p2.chunkBuffer = [n0, n1] ∧ p2.scheduledSources = [] ∧
    (queueChunk t2 n2 p2).2 =
      [PEvent.sourceStart (t2 + 1/50) ((n0 : ℚ) / sr),
       PEvent.sourceStart (t2 + 1/50 + (n0 : ℚ) / sr) ((n1 : ℚ) / sr),
       PEvent.sourceStart (t2 + 1/50 + (n0 : ℚ) / sr + (n1 : ℚ) / sr) ((n2 : ℚ) / sr)] ∧
    (queueChunk t2 n2 p2).1.chunkBuffer = [] ∧
    (queueChunk t2 n2 p2).1.playbackStarted = true ∧
    (∃ q, endStream te p2 = Except.ok q ∧
      q.2 = [PEvent.sourceStart (te + 1/50) ((n0 : ℚ) / sr),
             PEvent.sourceStart (te + 1/50 + (n0 : ℚ) / sr) ((n1 : ℚ) / sr)] ∧
      q.1.chunkBuffer = [] ∧
      q.1.endTimeoutDelay =
        some ((1/50 + (n0 : ℚ) / sr + (n1 : ℚ) / sr) * 1000 + 50) ∧
      (fireEndTimeout q.1).2 = [PEvent.playbackEnd]) := by
  have hd0 : (0 : ℚ) ≤ (n0 : ℚ) / sr := div_nonneg (Nat.cast_nonneg n0) hsr.le
  have hd1 : (0 : ℚ) ≤ (n1 : ℚ) / sr := div_nonneg (Nat.cast_nonneg n1) hsr.le
  have hp0' : p0 = ⟨true, sr, 0, true, [], none, 0, [], false, 3⟩ := by
    rw [hp0]; simp [startStream, dispose, initPlayer, hsr.ne']
  subst hp0'
  have s1 : queueChunk t0 n0 (⟨true, sr, 0, true, [], none, 0, [], false, 3⟩ : Player)
      = (⟨true, sr, 0, true, [], none, 0, [n0], false, 3⟩, []) := by
    simp [queueChunk]
  rw [s1] at h1
  injection h1 with hp1 he1
  subst hp1; subst he1
  have s2 : queueChunk t1 n1 (⟨true, sr, 0, true, [], none, 0, [n0], false, 3⟩ : Player)
      = (⟨true, sr, 0, true, [], none, 0, [n0, n1], false, 3⟩, []) := by
    simp [queueChunk]
  rw [s2] at h2
  injection h2 with hp2 he2
  subst hp2; subst he2
  have sc0 : scheduleChunk t2 n0
        (⟨true, sr, t2 + 1/50, true, [], none, 0, [n0, n1, n2], true, 3⟩ : Player)
      = (⟨true, sr, t2 + 1/50 + (n0 : ℚ) / sr, true, [(t2 + 1/50, (n0 : ℚ) / sr)],
          none, (n0 : ℚ) / sr, [n0, n1, n2], true, 3⟩,
         [PEvent.sourceStart (t2 + 1/50) ((n0 : ℚ) / sr)]) :=
    scheduleChunk_no_gap t2 n0 _ (by show t2 ≤ t2 + 1/50; linarith)
  have sc1 : scheduleChunk t2 n1
        (⟨true, sr, t2 + 1/50 + (n0 : ℚ) / sr, true, [(t2 + 1/50, (n0 : ℚ) / sr)],
          none, (n0 : ℚ) / sr, [n0, n1, n2], true, 3⟩ : Player)
      = (⟨true, sr, t2 + 1/50 + (n0 : ℚ) / sr + (n1 : ℚ) / sr, true,
          [(t2 + 1/50, (n0 : ℚ) / sr), (t2 + 1/50 + (n0 : ℚ) / sr, (n1 : ℚ) / sr)],
          none, (n1 : ℚ) / sr, [n0, n1, n2], true, 3⟩,
         [PEvent.sourceStart (t2 + 1/50 + (n0 : ℚ) / sr) ((n1 : ℚ) / sr)]) :=
    scheduleChunk_no_gap t2 n1 _ (by show t2 ≤ t2 + 1/50 + (n0 : ℚ) / sr; linarith)
  have sc2 : scheduleChunk t2 n2
        (⟨true, sr, t2 + 1/50 + (n0 : ℚ) / sr + (n1 : ℚ) / sr, true,
          [(t2 + 1/50, (n0 : ℚ) / sr), (t2 + 1/50 + (n0 : ℚ) / sr, (n1 : ℚ) / sr)],
          none, (n1 : ℚ) / sr, [n0, n1, n2], true, 3⟩ : Player)
      = (⟨true, sr, t2 + 1/50 + (n0 : ℚ) / sr + (n1 : ℚ) / sr + (n2 : ℚ) / sr, true,
          [(t2 + 1/50, (n0 : ℚ) / sr), (t2 + 1/50 + (n0 : ℚ) / sr, (n1 : ℚ) / sr),
           (t2 + 1/50 + (n0 : ℚ) / sr + (n1 : ℚ) / sr, (n2 : ℚ) / sr)],
          none, (n2 : ℚ) / sr, [n0, n1, n2], true, 3⟩,
         [PEvent.sourceStart (t2 + 1/50 + (n0 : ℚ) / sr + (n1 : ℚ) / sr) ((n2 : ℚ) / sr)]) :=
    scheduleChunk_no_gap t2 n2 _
      (by show t2 ≤ t2 + 1/50 + (n0 : ℚ) / sr + (n1 : ℚ) / sr; linarith)
  have s3 : queueChunk t2 n2 (⟨true, sr, 0, true, [], none, 0, [n0, n1], false, 3⟩ : Player)
      = (⟨true, sr, t2 + 1/50 + (n0 : ℚ) / sr + (n1 : ℚ) / sr + (n2 : ℚ) / sr, true,
          [(t2 + 1/50, (n0 : ℚ) / sr),
           (t2 + 1/50 + (n0 : ℚ) / sr, (n1 : ℚ) / sr),
           (t2 + 1/50 + (n0 : ℚ) / sr + (n1 : ℚ) / sr, (n2 : ℚ) / sr)],
          none, (n2 : ℚ) / sr, [], true, 3⟩,
         [PEvent.sourceStart (t2 + 1/50) ((n0 : ℚ) / sr),
          PEvent.sourceStart (t2 + 1/50 + (n0 : ℚ) / sr) ((n1 : ℚ) / sr),
          PEvent.sourceStart (t2 + 1/50 + (n0 : ℚ) / sr + (n1 : ℚ) / sr) ((n2 : ℚ) / sr)]) := by
    simp [queueChunk, flushBufferAndStart, sc0, sc1, sc2, -one_div]
  have sc0e : scheduleChunk te n0
        (⟨true, sr, te + 1/50, true, [], none, 0, [n0, n1], true, 3⟩ : Player)
      = (⟨true, sr, te + 1/50 + (n0 : ℚ) / sr, true, [(te + 1/50, (n0 : ℚ) / sr)],
          none, (n0 : ℚ) / sr, [n0, n1], true, 3⟩,
         [PEvent.sourceStart (te + 1/50) ((n0 : ℚ) / sr)]) :=
    scheduleChunk_no_gap te n0 _ (by show te ≤ te + 1/50; linarith)
  have sc1e : scheduleChunk te n1
        (⟨true, sr, te + 1/50 + (n0 : ℚ) / sr, true, [(te + 1/50, (n0 : ℚ) / sr)],
          none, (n0 : ℚ) / sr, [n0, n1], true, 3⟩ : Player)
      = (⟨true, sr, te + 1/50 + (n0 : ℚ) / sr + (n1 : ℚ) / sr, true,
          [(te + 1/50, (n0 : ℚ) / sr), (te + 1/50 + (n0 : ℚ) / sr, (n1 : ℚ) / sr)],
          none, (n1 : ℚ) / sr, [n0, n1], true, 3⟩,
         [PEvent.sourceStart (te + 1/50 + (n0 : ℚ) / sr) ((n1 : ℚ) / sr)]) :=
    scheduleChunk_no_gap te n1 _ (by show te ≤ te + 1/50 + (n0 : ℚ) / sr; linarith)
  have hmax : max (0 : ℚ) (te + 1/50 + (n0 : ℚ) / sr + (n1 : ℚ) / sr - te)
      = 1/50 + (n0 : ℚ) / sr + (n1 : ℚ) / sr := by
    rw [max_eq_right (by linarith)]; ring
  have sE : endStream te (⟨true, sr, 0, true, [], none, 0, [n0, n1], false, 3⟩ : Player)
      = Except.ok
          (⟨true, sr, te + 1/50 + (n0 : ℚ) / sr + (n1 : ℚ) / sr, true,
            [(te + 1/50, (n0 : ℚ) / sr),
             (te + 1/50 + (n0 : ℚ) / sr, (n1 : ℚ) / sr)],
            some ((1/50 + (n0 : ℚ) / sr + (n1 : ℚ) / sr) * 1000 + 50),
            (n1 : ℚ) / sr, [], true, 3⟩,
           [PEvent.sourceStart (te + 1/50) ((n0 : ℚ) / sr),
            PEvent.sourceStart (te + 1/50 + (n0 : ℚ) / sr) ((n1 : ℚ) / sr)]) := by
    simp [endStream, flushBufferAndStart, sc0e, sc1e, hmax, -one_div]
  refine ⟨rfl, rfl, rfl, rfl, rfl, rfl, ?_, ?_, ?_, ?_⟩
  · rw [s3]
  · rw [s3]
  · rw [s3]
  · exact ⟨_, sE, rfl, rfl, rfl, rfl⟩

/-- Witness for `player_warmup_and_short_stream` at 24 kHz with 6000-sample
(~250 ms) chunks and clock values 0. -/
theorem player_warmup_and_short_stream_witness :
    ((queueChunk 0 6000 (queueChunk 0 6000 (startStream 24000 initPlayer).1).1).1.chunkBuffer
        = [6000, 6000]) ∧
    (queueChunk 0 6000
        (queueChunk 0 6000 (queueChunk 0 6000 (startStream 24000 initPlayer).1).1).1).2 =
      [PEvent.sourceStart (1/50) ((6000 : ℚ) / 24000),
       PEvent.sourceStart (1/50 + (6000 : ℚ) / 24000) ((6000 : ℚ) / 24000),
       PEvent.sourceStart (1/50 + (6000 : ℚ) / 24000 + (6000 : ℚ) / 24000)
         ((6000 : ℚ) / 24000)] := by
  have h := player_warmup_and_short_stream 24000 (by norm_num) 6000 6000 6000 0 0 0 0
    (startStream 24000 initPlayer).1
    (queueChunk 0 6000 (startStream 24000 initPlayer).1).1
    (queueChunk 0 6000 (queueChunk 0 6000 (startStream 24000 initPlayer).1).1).1
    (queueChunk 0 6000 (startStream 24000 initPlayer).1).2
    (queueChunk 0 6000 (queueChunk 0 6000 (startStream 24000 initPlayer).1).1).2
    rfl rfl rfl
  have h7 := h.2.2.2.2.2.2.1
  refine ⟨h.2.2.2.2.1, ?_⟩
  rw [h7]
  norm_num

/-! ### Lemmas about the JavaScript string primitives -/

lemma dropWhile_eq_self_of_head (p : Char → Bool) (s : List Char)
    (h : ∀ c, s.head? = some c → p c = false) : s.dropWhile p = s := by
  cases s with
  | nil => rfl
  | cons c cs => simp [List.dropWhile_cons, h c rfl]

/-- A string whose first and last characters are not whitespace is unchanged
by `trim`. -/
lemma jsTrim_eq_self (s : List Char)
    (hhead : ∀ c, s.head? = some c → isJsWhitespace c = false)
    (hlast : ∀ c, s.getLast? = some c → isJsWhitespace c = false) :
    jsTrim s = s := by
  unfold jsTrim
  rw [dropWhile_eq_self_of_head _ _ hhead,
      dropWhile_eq_self_of_head _ _ (by
        intro c hc
        exact hlast c (by rwa [List.head?_reverse] at hc)),
      List.reverse_reverse]

/-- The first separator after a separator-free prefix is found at the
prefix's length (for any search offset `i`). -/
lemma findIdx?_first_sep (c : Char) (xs ys : List Char) (h : c ∉ xs) :
    ∀ i, (xs ++ c :: ys).findIdx? (fun x => x = c) i = some (i + xs.length) := by
  induction xs with
  | nil =>
    intro i
    simp [List.findIdx?]
  | cons a as ih =>
    intro i
    have ha : ¬(a = c) := fun hac => h (by simp [hac])
    simp only [List.cons_append, List.findIdx?, List.append_eq]
    rw [if_neg (by simpa using ha),
        ih (fun hm => h (List.mem_cons_of_mem a hm)) (i + 1)]
    simp only [Option.some.injEq, List.length_cons]
    omega

lemma jsSplit_ne_nil (sep : Char) (s : List Char) : jsSplit sep s ≠ [] := by
  induction s with
  | nil => simp [jsSplit]
  | cons c cs ih =>
    rcases h : jsSplit sep cs with _ | ⟨l, ls⟩
    · exact absurd h ih
    · rw [jsSplit, h]
      split
      · split_ifs <;> simp
      · simp

/-- Splitting a separator-free string yields the string itself. -/
lemma jsSplit_no_sep (sep : Char) (s : List Char) (h : sep ∉ s) :
    jsSplit sep s = [s] := by
  induction s with
  | nil => rfl
  | cons c cs ih =>
    have hc : ¬(c = sep) := fun hcs => h (by simp [hcs])
    rw [jsSplit, ih (fun hm => h (List.mem_cons_of_mem c hm))]
    simp [hc]

/-- Splitting at the first separator: the separator-free head becomes the
first part. -/
lemma jsSplit_sep_cons (sep : Char) (a b : List Char) (ha : sep ∉ a) :
    jsSplit sep (a ++ sep :: b) = a :: jsSplit sep b := by
  induction a with
  | nil =>
    rcases h : jsSplit sep b with _ | ⟨l, ls⟩
    · exact absurd h (jsSplit_ne_nil sep b)
    · rw [List.nil_append, jsSplit, h]
      simp [h]
  | cons c cs ih =>
    have hc : ¬(c = sep) := fun hcs => ha (by simp [hcs])
    rw [List.cons_append, jsSplit, ih (fun hm => ha (List.mem_cons_of_mem c hm))]
    simp [hc]

/-- `substring` with in-range, ordered natural indices is take-then-drop. -/
lemma jsSubstring_exact (s : List Char) (a b : Nat) (hab : a ≤ b) (hb : b ≤ s.length) :
    jsSubstring s (a : Int) (b : Int) = (s.take b).drop a := by
  have ha' : (a : Int) ≤ (s.length : Int) := by exact_mod_cast hab.trans hb
  have hb' : (b : Int) ≤ (s.length : Int) := by exact_mod_cast hb
  simp only [jsSubstring]
  rw [min_eq_left ha', min_eq_left hb',
      max_eq_right (by exact_mod_cast Nat.zero_le a),
      max_eq_right (by exact_mod_cast Nat.zero_le b),
      Int.toNat_natCast, Int.toNat_natCast,
      min_eq_left hab, max_eq_right hab]

/-- A decimal digit is not JavaScript whitespace. -/
lemma digit_not_ws (c : Char) (h1 : '0' ≤ c) (h2 : c ≤ '9') :
    isJsWhitespace c = false := by
  have hs : ¬(c = ' ') := by rintro rfl; exact absurd h1 (by decide)
  have ht : ¬(c = '\t') := by rintro rfl; exact absurd h1 (by decide)
  have hn : ¬(c = '\n') := by rintro rfl; exact absurd h1 (by decide)
  have hr : ¬(c = '\r') := by rintro rfl; exact absurd h1 (by decide)
  have hv : ¬(c = '\x0b') := by rintro rfl; exact absurd h1 (by decide)
  have hf : ¬(c = '\x0c') := by rintro rfl; exact absurd h1 (by decide)
  simp [isJsWhitespace, hs, ht, hn, hr, hv, hf]

lemma digitVal?_of_digit (c : Char) (h1 : '0' ≤ c) (h2 : c ≤ '9') :
    digitVal? c = some (c.toNat - '0'.toNat) := by
  simp [digitVal?, h1, h2]

/-- On an all-digit string, the digit scanner is just the value map. -/
lemma takeDigits_all (s : List Char) (hd : ∀ c ∈ s, '0' ≤ c ∧ c ≤ '9') :
    takeDigits digitVal? s = s.map (fun c => c.toNat - '0'.toNat) := by
  induction s with
  | nil => rfl
  | cons c cs ih =>
    obtain ⟨h1, h2⟩ := hd c (List.mem_cons_self c cs)
    rw [takeDigits, digitVal?_of_digit c h1 h2,
        ih (fun x hx => hd x (List.mem_cons_of_mem c hx))]
    rfl

/-- The value parsed from an all-digit string. -/
def natOfDigits (s : List Char) : Nat :=
  digitsToNat 10 (s.map (fun c => c.toNat - '0'.toNat))

/-- The sign scanner is inert on a string starting with a digit. -/
lemma jsStripSign_digit (c : Char) (cs : List Char) (h1 : '0' ≤ c) :
    jsStripSign (c :: cs) = (false, c :: cs) := by
  have hm : ¬(c = '-') := by rintro rfl; exact absurd h1 (by decide)
  have hp : ¬(c = '+') := by rintro rfl; exact absurd h1 (by decide)
  simp [jsStripSign, hm, hp]

/-- No `0x` prefix on an all-decimal-digit string. -/
lemma jsHexRadix_digits (c : Char) (cs : List Char)
    (hd : ∀ x ∈ c :: cs, '0' ≤ x ∧ x ≤ '9') :
    jsHexRadix (c :: cs) = false := by
  cases cs with
  | nil => simp [jsHexRadix]
  | cons d ds =>
    obtain ⟨hd1, hd2⟩ := hd d (List.mem_cons_of_mem c (List.mem_cons_self d ds))
    have hx : ¬(d = 'x') := by rintro rfl; exact absurd hd2 (by decide)
    have hX : ¬(d = 'X') := by rintro rfl; exact absurd hd2 (by decide)
    simp [jsHexRadix, hx, hX]

/-- `parseInt` on a non-empty all-decimal-digit string yields its value. -/
lemma jsParseInt_digits (s : List Char) (hne : s ≠ [])
    (hd : ∀ c ∈ s, '0' ≤ c ∧ c ≤ '9') :
    jsParseInt s = some ((natOfDigits s : Nat) : Int) := by
  obtain ⟨c, cs, rfl⟩ := List.exists_cons_of_ne_nil hne
  obtain ⟨h1, h2⟩ := hd c (List.mem_cons_self c cs)
  have hws : (c :: cs).dropWhile isJsWhitespace = c :: cs :=
    dropWhile_eq_self_of_head _ _ (by
      intro x hx
      rw [List.head?_cons, Option.some.injEq] at hx
      subst hx
      exact digit_not_ws c h1 h2)
  have hds : takeDigits digitVal? (c :: cs) =
      (c :: cs).map (fun x => x.toNat - '0'.toNat) := takeDigits_all _ hd
  have hds_ne : (c :: cs).map (fun x => x.toNat - '0'.toNat) ≠ [] := by simp
  simp only [jsParseInt, hws, jsStripSign_digit c cs h1, jsHexRadix_digits c cs hd,
    if_neg, Bool.false_eq_true, if_false, hds, natOfDigits]
  rw [if_neg hds_ne]

/-- A `STREAM_CHUNK:` line takes exactly the chunk branch of the
dispatcher. -/
lemma dispatchLine_chunk_branch (st : Bridge) (tail : List Char) :
    dispatchLine st (String.toList "STREAM_CHUNK:" ++ tail) =
      (match writeUInt32LE (jsParseInt (jsSubstring
          (String.toList "STREAM_CHUNK:" ++ tail)
          (jsIndexOfFrom (String.toList "STREAM_CHUNK:" ++ tail) ':' 13 + 1)
          (jsIndexOfFrom (String.toList "STREAM_CHUNK:" ++ tail) ':'
            (jsIndexOfFrom (String.toList "STREAM_CHUNK:" ++ tail) ':' 13 + 1)))) with
       | Except.error e => Except.error e
       | Except.ok header =>
           Except.ok (st, [Effect.wsBinary
             (header ++ base64Decode
               (jsSubstring (String.toList "STREAM_CHUNK:" ++ tail)
                 (jsIndexOfFrom (String.toList "STREAM_CHUNK:" ++ tail) ':'
                   (jsIndexOfFrom (String.toList "STREAM_CHUNK:" ++ tail) ':' 13 + 1) + 1)
                 (String.toList "STREAM_CHUNK:" ++ tail).length))])) := by
  have c1 : ¬(String.toList "STREAM_CHUNK:" ++ tail = String.toList "READY") := by
    intro h
    have h2 : ('S' :: (String.toList "TREAM_CHUNK:" ++ tail))
        = 'R' :: String.toList "EADY" := h
    injection h2 with hh _
    exact absurd hh (by decide)
  have c2 : ¬(String.toList "STREAM_CHUNK:" ++ tail = String.toList "KOKORO_READY") := by
    intro h
    have h2 : ('S' :: (String.toList "TREAM_CHUNK:" ++ tail))
        = 'K' :: String.toList "OKORO_READY" := h
    injection h2 with hh _
    exact absurd hh (by decide)
  have c3 : ¬(String.toList "STREAM_CHUNK:" ++ tail = String.toList "INTERRUPT_ACK") := by
    intro h
    have h2 : ('S' :: (String.toList "TREAM_CHUNK:" ++ tail))
        = 'I' :: String.toList "NTERRUPT_ACK" := h
    injection h2 with hh _
    exact absurd hh (by decide)
  have c4 : jsStartsWith (String.toList "STREAM_START:")
      (String.toList "STREAM_CHUNK:" ++ tail) = false := rfl
  have c5 : jsStartsWith (String.toList "STREAM_CHUNK:")
      (String.toList "STREAM_CHUNK:" ++ tail) = true := by
    cases tail <;> rfl
  unfold dispatchLine
  rw [if_neg c1, if_neg c2, if_neg c3, c4, c5,
    if_neg (show ¬(false = true) by decide), if_pos (show true = true from rfl)]

/-- A `STREAM_START:` line takes exactly the start branch of the
dispatcher. -/
lemma dispatchLine_start_branch (st : Bridge) (tail : List Char) :
    dispatchLine st (String.toList "STREAM_START:" ++ tail) =
      Except.ok (st,
        [Effect.wsJson (WsEvent.audioStart ((jsSplit ':' tail).headD [])
          (rateOr24000 ((jsSplit ':' tail).drop 1).head?) 1 16)]) := by
  have c1 : ¬(String.toList "STREAM_START:" ++ tail = String.toList "READY") := by
    intro h
    have h2 : ('S' :: (String.toList "TREAM_START:" ++ tail))
        = 'R' :: String.toList "EADY" := h
    injection h2 with hh _
    exact absurd hh (by decide)
  have c2 : ¬(String.toList "STREAM_START:" ++ tail = String.toList "KOKORO_READY") := by
    intro h
    have h2 : ('S' :: (String.toList "TREAM_START:" ++ tail))
        = 'K' :: String.toList "OKORO_READY" := h
    injection h2 with hh _
    exact absurd hh (by decide)
  have c3 : ¬(String.toList "STREAM_START:" ++ tail = String.toList "INTERRUPT_ACK") := by
    intro h
    have h2 : ('S' :: (String.toList "TREAM_START:" ++ tail))
        = 'I' :: String.toList "NTERRUPT_ACK" := h
    injection h2 with hh _
    exact absurd hh (by decide)
  have c4 : jsStartsWith (String.toList "STREAM_START:")
      (String.toList "STREAM_START:" ++ tail) = true := by
    cases tail <;> rfl
  unfold dispatchLine
  rw [if_neg c1, if_neg c2, if_neg c3, c4,
    if_pos (show true = true from rfl),
    show List.drop 13 (String.toList "STREAM_START:" ++ tail) = tail from rfl]

/-- `indexOf(':', 13)` on a well-shaped chunk line finds the colon after the
response id. -/
lemma chunk_secondColon (id idxStr b64 : List Char) (hid : ':' ∉ id) :
    jsIndexOfFrom
        (String.toList "STREAM_CHUNK:" ++ (id ++ (':' :: (idxStr ++ (':' :: b64))))) ':' 13
      = 13 + (id.length : Int) := by
  unfold jsIndexOfFrom
  rw [show ((13 : Int)).toNat = 13 from rfl,
      show List.drop 13
          (String.toList "STREAM_CHUNK:" ++ (id ++ (':' :: (idxStr ++ (':' :: b64)))))
        = id ++ ':' :: (idxStr ++ (':' :: b64)) from rfl,
      findIdx?_first_sep ':' id _ hid 0]
  push_cast
  ring

/-- `indexOf(':', secondColon + 1)` finds the colon after the index field. -/
lemma chunk_thirdColon (id idxStr b64 : List Char) (hidx : ':' ∉ idxStr) :
    jsIndexOfFrom
        (String.toList "STREAM_CHUNK:" ++ (id ++ (':' :: (idxStr ++ (':' :: b64))))) ':'
        (13 + (id.length : Int) + 1)
      = 14 + (id.length : Int) + (idxStr.length : Int) := by
  unfold jsIndexOfFrom
  have hto : (13 + (id.length : Int) + 1).toNat = 14 + id.length := by omega
  have hshape : String.toList "STREAM_CHUNK:" ++ (id ++ (':' :: (idxStr ++ (':' :: b64))))
      = (String.toList "STREAM_CHUNK:" ++ id ++ [':']) ++ (idxStr ++ (':' :: b64)) := by
    simp
  have hlen : (String.toList "STREAM_CHUNK:" ++ id ++ [':']).length = 14 + id.length := by
    simp [List.length_append]
    omega
  rw [hto, hshape, List.drop_append_of_le_length (by omega),
      List.drop_eq_nil_of_le (by omega), List.nil_append,
      findIdx?_first_sep ':' idxStr b64 hidx 0]
  push_cast
  ring

/-- `substring(secondColon + 1, thirdColon)` extracts the index field. -/
lemma chunk_idx_slice (id idxStr b64 : List Char) :
    jsSubstring (String.toList "STREAM_CHUNK:" ++ (id ++ (':' :: (idxStr ++ (':' :: b64)))))
        (13 + (id.length : Int) + 1) (14 + (id.length : Int) + (idxStr.length : Int))
      = idxStr := by
  have hL : (String.toList "STREAM_CHUNK:"
      ++ (id ++ (':' :: (idxStr ++ (':' :: b64))))).length
      = 15 + id.length + idxStr.length + b64.length := by
    simp [List.length_append]
    omega
  have e1 : (13 + (id.length : Int) + 1) = ((14 + id.length : Nat) : Int) := by
    push_cast; ring
  have e2 : (14 + (id.length : Int) + (idxStr.length : Int))
      = ((14 + id.length + idxStr.length : Nat) : Int) := by
    push_cast; ring
  rw [e1, e2, jsSubstring_exact _ _ _ (by omega) (by omega)]
  have hshape : String.toList "STREAM_CHUNK:" ++ (id ++ (':' :: (idxStr ++ (':' :: b64))))
      = ((String.toList "STREAM_CHUNK:" ++ id ++ [':']) ++ idxStr) ++ (':' :: b64) := by
    simp
  have hlen1 : ((String.toList "STREAM_CHUNK:" ++ id ++ [':']) ++ idxStr).length
      = 14 + id.length + idxStr.length := by
    simp [List.length_append]
    omega
  have hlen2 : (String.toList "STREAM_CHUNK:" ++ id ++ [':']).length = 14 + id.length := by
    simp [List.length_append]
    omega
  rw [hshape, List.take_left' hlen1, List.drop_append_of_le_length (by omega),
      List.drop_eq_nil_of_le (by omega), List.nil_append]

/-- `substring(thirdColon + 1)` extracts the base64 payload. -/
lemma chunk_b64_slice (id idxStr b64 : List Char) :
    jsSubstring (String.toList "STREAM_CHUNK:" ++ (id ++ (':' :: (idxStr ++ (':' :: b64)))))
        (14 + (id.length : Int) + (idxStr.length : Int) + 1)
        ((String.toList "STREAM_CHUNK:" ++ (id ++ (':' :: (idxStr ++ (':' :: b64))))).length)
      = b64 := by
  have hL : (String.toList "STREAM_CHUNK:"
      ++ (id ++ (':' :: (idxStr ++ (':' :: b64))))).length
      = 15 + id.length + idxStr.length + b64.length := by
    simp [List.length_append]
    omega
  have e1 : (14 + (id.length : Int) + (idxStr.length : Int) + 1)
      = ((15 + id.length + idxStr.length : Nat) : Int) := by
    push_cast; ring
  rw [e1, jsSubstring_exact _ _ _ (by omega) (le_refl _), List.take_length]
  have hshape : String.toList "STREAM_CHUNK:" ++ (id ++ (':' :: (idxStr ++ (':' :: b64))))
      = (String.toList "STREAM_CHUNK:" ++ id ++ [':'] ++ idxStr ++ [':']) ++ b64 := by
    simp
  have hlen2 : (String.toList "STREAM_CHUNK:" ++ id ++ [':'] ++ idxStr ++ [':']).length
      = 15 + id.length + idxStr.length := by
    simp [List.length_append]
    omega
  rw [hshape, List.drop_append_of_le_length (by omega),
      List.drop_eq_nil_of_le (by omega), List.nil_append]

/-- A well-shaped chunk line (non-whitespace payload) is unchanged by trim. -/
lemma chunk_line_trim (id idxStr b64 : List Char)
    (hb64 : ∀ c ∈ b64, isJsWhitespace c = false) :
    jsTrim (String.toList "STREAM_CHUNK:" ++ (id ++ (':' :: (idxStr ++ (':' :: b64)))))
      = String.toList "STREAM_CHUNK:" ++ (id ++ (':' :: (idxStr ++ (':' :: b64)))) := by
  apply jsTrim_eq_self
  · intro c hc
    have h2 : some 'S' = some c := hc
    injection h2 with h3
    subst h3
    decide
  · intro c hc
    have hshape : String.toList "STREAM_CHUNK:" ++ (id ++ (':' :: (idxStr ++ (':' :: b64))))
        = (String.toList "STREAM_CHUNK:" ++ id ++ (':' :: idxStr)) ++ (':' :: b64) := by
      simp
    rw [hshape, List.getLast?_append_cons] at hc
    cases b64 with
    | nil =>
      have h2 : some ':' = some c := hc
      injection h2 with h3
      subst h3
      decide
    | cons d ds =>
      rw [List.getLast?_cons_cons] at hc
      exact hb64 c (List.mem_of_mem_getLast? hc)

/-- A well-shaped start line (non-whitespace rate field) is unchanged by
trim. -/
lemma start_line_trim (id rateStr : List Char)
    (hrs : ∀ c ∈ rateStr, isJsWhitespace c = false) :
    jsTrim (String.toList "STREAM_START:" ++ (id ++ (':' :: rateStr)))
      = String.toList "STREAM_START:" ++ (id ++ (':' :: rateStr)) := by
  apply jsTrim_eq_self
  · intro c hc
    have h2 : some 'S' = some c := hc
    injection h2 with h3
    subst h3
    decide
  · intro c hc
    have hshape : String.toList "STREAM_START:" ++ (id ++ (':' :: rateStr))
        = (String.toList "STREAM_START:" ++ id) ++ (':' :: rateStr) := by
      simp
    rw [hshape, List.getLast?_append_cons] at hc
    cases rateStr with
    | nil =>
      have h2 : some ':' = some c := hc
      injection h2 with h3
      subst h3
      decide
    | cons d ds =>
      rw [List.getLast?_cons_cons] at hc
      exact hrs c (List.mem_of_mem_getLast? hc)

/-- C3: a well-formed `STREAM_CHUNK:<id>:<index>:<base64>` line with a
numeric in-range index produces exactly one binary frame to stream clients
whose first 4 bytes are the index in 32-bit little-endian encoding and whose
remaining bytes are the base64-decoded payload. -/
theorem streamChunk_frame_layout (st : Bridge) (id idxStr b64 : List Char)
    (hid : ':' ∉ id)
    (hidx_ne : idxStr ≠ [])
    (hidx : ∀ c ∈ idxStr, '0' ≤ c ∧ c ≤ '9')
    (hrange : natOfDigits idxStr ≤ 4294967295)
    (hb64 : ∀ c ∈ b64, isJsWhitespace c = false) :
    handleLine st
        (String.toList "STREAM_CHUNK:" ++ (id ++ (':' :: (idxStr ++ (':' :: b64)))))
      = Except.ok (st, [Effect.wsBinary (le32 (natOfDigits idxStr) ++ base64Decode b64)]) := by
  have hcolon : ':' ∉ idxStr := by
    intro hm
    exact absurd (hidx ':' hm).2 (by decide)
  have hw : writeUInt32LE (some ((natOfDigits idxStr : Nat) : Int))
      = Except.ok (le32 (natOfDigits idxStr)) := by
    have hnn : ¬(((natOfDigits idxStr : Nat) : Int) < 0
        ∨ (4294967295 : Int) < ((natOfDigits idxStr : Nat) : Int)) := by
      omega
    simp only [writeUInt32LE, le32, if_neg hnn, Int.toNat_natCast]
  unfold handleLine
  rw [chunk_line_trim id idxStr b64 hb64,
      dispatchLine_chunk_branch st (id ++ (':' :: (idxStr ++ (':' :: b64)))),
      chunk_secondColon id idxStr b64 hid,
      chunk_thirdColon id idxStr b64 hcolon,
      chunk_idx_slice id idxStr b64,
      chunk_b64_slice id idxStr b64,
      jsParseInt_digits idxStr hidx_ne hidx,
      hw]

/-- Witness for `streamChunk_frame_layout`:
`STREAM_CHUNK:resp1:0:AQIDBA==` yields a frame whose first 4 bytes decode
(little-endian) to 0 and whose tail is the decoded payload `[1,2,3,4]`. -/
theorem streamChunk_frame_layout_witness :
    handleLine initBridge
        (String.toList "STREAM_CHUNK:" ++ (String.toList "resp1"
          ++ (':' :: (String.toList "0" ++ (':' :: String.toList "AQIDBA==")))))
      = Except.ok (initBridge, [Effect.wsBinary ([0, 0, 0, 0] ++ [1, 2, 3, 4])]) := by
  have h := streamChunk_frame_layout initBridge (String.toList "resp1")
    (String.toList "0") (String.toList "AQIDBA==")
    (by decide) (by decide) (by decide) (by decide) (by decide)
  rw [h,
      show le32 (natOfDigits (String.toList "0")) = [0, 0, 0, 0] from by decide,
      show base64Decode (String.toList "AQIDBA==") = [1, 2, 3, 4] from by decide]

/-- C7 (amended): a `STREAM_START` line whose sample-rate field does not
parse falls back to the default 24000; a `STREAM_CHUNK` line whose index
field does not parse is **not** ignored — the `NaN` index passes Node's
range check and is coerced to 0, so a frame with header `[0,0,0,0]` and the
decoded payload is still broadcast.  Neither line raises an error or
terminates line handling. -/
theorem malformedNumericField_recovery (st : Bridge) (id rateStr idxStr b64 : List Char)
    (hid : ':' ∉ id)
    (hrs : ':' ∉ rateStr)
    (hrsws : ∀ c ∈ rateStr, isJsWhitespace c = false)
    (hrs_nan : jsParseInt rateStr = none)
    (hidxcol : ':' ∉ idxStr)
    (hidx_nan : jsParseInt idxStr = none)
    (hb64 : ∀ c ∈ b64, isJsWhitespace c = false) :
    handleLine st (String.toList "STREAM_START:" ++ (id ++ (':' :: rateStr)))
      = Except.ok (st, [Effect.wsJson (WsEvent.audioStart id 24000 1 16)]) ∧
    handleLine st
        (String.toList "STREAM_CHUNK:" ++ (id ++ (':' :: (idxStr ++ (':' :: b64)))))
      = Except.ok (st, [Effect.wsBinary ([0, 0, 0, 0] ++ base64Decode b64)]) := by
  constructor
  · unfold handleLine
    rw [start_line_trim id rateStr hrsws,
        dispatchLine_start_branch st (id ++ (':' :: rateStr)),
        jsSplit_sep_cons ':' id rateStr hid,
        jsSplit_no_sep ':' rateStr hrs]
    simp [rateOr24000, hrs_nan]
  · unfold handleLine
    rw [chunk_line_trim id idxStr b64 hb64,
        dispatchLine_chunk_branch st (id ++ (':' :: (idxStr ++ (':' :: b64)))),
        chunk_secondColon id idxStr b64 hid,
        chunk_thirdColon id idxStr b64 hidxcol,
        chunk_idx_slice id idxStr b64,
        chunk_b64_slice id idxStr b64,
        hidx_nan,
        show writeUInt32LE none = Except.ok [0, 0, 0, 0] from rfl]

/-- C7 counterexample: `STREAM_CHUNK:resp1:xyz:AQIDBA==` (index field does
not parse) is not ignored — a binary frame is still broadcast, with the
index bytes zeroed. -/
theorem malformedChunk_not_ignored_counterexample :
    handleLine initBridge
        (String.toList "STREAM_CHUNK:" ++ (String.toList "resp1"
          ++ (':' :: (String.toList "xyz" ++ (':' :: String.toList "AQIDBA==")))))
      = Except.ok (initBridge, [Effect.wsBinary [0, 0, 0, 0, 1, 2, 3, 4]]) ∧
    ([Effect.wsBinary [0, 0, 0, 0, 1, 2, 3, 4]] : List Effect) ≠ [] := by
  have h := (malformedNumericField_recovery initBridge (String.toList "resp1")
    (String.toList "xyz") (String.toList "xyz") (String.toList "AQIDBA==")
    (by decide) (by decide) (by decide) (by decide) (by decide) (by decide) (by decide)).2
  constructor
  · rw [h, show base64Decode (String.toList "AQIDBA==") = [1, 2, 3, 4] from by decide]
    rfl
  · decide

/-- Witness for `malformedNumericField_recovery`: `STREAM_START:resp1:abc`
falls back to 24000 Hz; `STREAM_CHUNK:resp1:xyz:AQIDBA==` still emits a
zero-indexed frame. -/
theorem malformedNumericField_recovery_witness :
    handleLine initBridge
        (String.toList "STREAM_START:" ++ (String.toList "resp1"
          ++ (':' :: String.toList "abc")))
      = Except.ok (initBridge,
          [Effect.wsJson (WsEvent.audioStart (String.toList "resp1") 24000 1 16)]) ∧
    handleLine initBridge
        (String.toList "STREAM_CHUNK:" ++ (String.toList "resp1"
          ++ (':' :: (String.toList "xyz" ++ (':' :: String.toList "AQIDBA==")))))
      = Except.ok (initBridge,
          [Effect.wsBinary ([0, 0, 0, 0] ++ base64Decode (String.toList "AQIDBA=="))]) := by
  exact malformedNumericField_recovery initBridge (String.toList "resp1")
    (String.toList "abc") (String.toList "xyz") (String.toList "AQIDBA==")
    (by decide) (by decide) (by decide) (by decide) (by decide) (by decide) (by decide)

end Jarvis
